import Mathlib

/-!
A shallow embedding, in Lean 4, of the virtray tray utility (src/virtray.py):
the wmctrl output parser and window queries (`WindowManager`), the bounded
console-focus polling loop, and the libvirt lifecycle operations
(`LibvirtManager`) together with the tray orchestration (`VirtTray`).

External effects are made explicit:
* the text produced by an external command (`wmctrl -l`) is a `String`
  parameter; one parameter per command execution;
* the hypervisor connection is an oracle `Conn` recording which domains the
  hypervisor knows and which external calls fail;
* the mutable world (active domains, filesystem, emitted notifications) is a
  `World` value threaded through the operations; a raised Python exception is
  an `Except.error` / `Option String` result, and — as in Python — side
  effects performed before the raise are kept.
-/

namespace Virtray

/-! ## Python string primitives

`str.split(sep=None, maxsplit=n)` and `str.strip()` as used by the source. -/

/-- Python's whitespace test (space, tab, newline, carriage return,
vertical tab, form feed), used by `str.split(sep=None)` and `str.strip()`. -/
def isPySpace (c : Char) : Bool :=
  c == ' ' || c == '\t' || c == '\n' || c == '\r' || c.toNat == 11 || c.toNat == 12

/-- Python `str.strip()`: remove leading and trailing whitespace. -/
def pyStrip (s : String) : String :=
  String.mk (((s.data.dropWhile isPySpace).reverse.dropWhile isPySpace).reverse)

/-- Core of Python `str.split(sep=None, maxsplit=ms)`, applied after leading
whitespace has been dropped: if nothing is left produce no further pieces;
once `ms` splits have been made the remainder is the final piece; otherwise
take the maximal run of non-whitespace as the next piece and continue past the
following whitespace. -/
def pySplitCore : Nat → List Char → List String
  | _, [] => []
  | 0, c :: cs => [String.mk (c :: cs)]
  | ms + 1, c :: cs =>
    String.mk ((c :: cs).takeWhile (fun ch => !isPySpace ch)) ::
      pySplitCore ms (((c :: cs).dropWhile (fun ch => !isPySpace ch)).dropWhile isPySpace)

/-- Python `str.split(sep=None, maxsplit=ms)` on a character list. -/
def pySplitAux (ms : Nat) (s : List Char) : List String :=
  pySplitCore ms (s.dropWhile isPySpace)

/-- Python `line.split(sep=None, maxsplit=ms)`. -/
def pySplit (ms : Nat) (line : String) : List String :=
  pySplitAux ms line.data

/-- Python `str.split("\n")` on a character list, with `acc` the characters
of the current line in reverse: splitting the empty string yields `[""]`, and
every newline separates two (possibly empty) lines. -/
def splitLinesAux : List Char → List Char → List String
  | acc, [] => [String.mk acc.reverse]
  | acc, c :: cs =>
    if c = '\n' then String.mk acc.reverse :: splitLinesAux [] cs
    else splitLinesAux (c :: acc) cs

/-- The lines the source iterates over: `execute_command("wmctrl -l").strip()`
followed by `.split("\n")`. -/
def pyLines (output : String) : List String :=
  splitLinesAux [] (pyStrip output).data

/-- A nonempty string without any Python whitespace: one whitespace-delimited
field of a `wmctrl -l` line. -/
def isTokenStr (s : String) : Bool :=
  !s.data.isEmpty && s.data.all (fun c => !isPySpace c)

/-- A nonempty string that does not start with whitespace: the shape of the
title remainder of a `wmctrl -l` line (it may contain internal spaces). -/
def isTitleStr (s : String) : Bool :=
  match s.data with
  | [] => false
  | c :: _ => !isPySpace c

/-! ## WindowManager -/

/-- A parsed `wmctrl -l` line (source: `WmctrlItem`). -/
structure WmctrlItem where
  window_id : String
  title : String
deriving DecidableEq

/-- One iteration of the loop in `WindowManager.get_wmctrl_items`:
`window_id, _, _, title = line.split(sep=None, maxsplit=3)`; unpacking into
four names raises `ValueError` unless the split yields exactly four pieces. -/
def parseWmctrlLine (line : String) : Except String WmctrlItem :=
  match pySplit 3 line with
  | [window_id, _, _, title] => Except.ok ⟨window_id, title⟩
  | _ => Except.error "ValueError: not enough values to unpack"

/-- Modelled from the spec's words, for comparison only (the spec reads
"parses the first two whitespace-delimited tokens as id and (ignored)
metadata, with the remainder of the line as title"): split with
`maxsplit=2`, so the id, ONE ignored metadata token, and the remainder. -/
def parseWmctrlLineSpec (line : String) : Except String WmctrlItem :=
  match pySplit 2 line with
  | [window_id, _, title] => Except.ok ⟨window_id, title⟩
  | _ => Except.error "ValueError: not enough values to unpack"

/-- The accumulation loop of `WindowManager.get_wmctrl_items`: parse each line
in order, appending the items; an exception on any line propagates. -/
def get_wmctrl_items_loop : List String → Except String (List WmctrlItem)
  | [] => Except.ok []
  | l :: ls =>
    match parseWmctrlLine l with
    | Except.error e => Except.error e
    | Except.ok it =>
      match get_wmctrl_items_loop ls with
      | Except.error e => Except.error e
      | Except.ok items => Except.ok (it :: items)

/-- `WindowManager.get_wmctrl_items`, as a function of the text produced by the
`wmctrl -l` command execution. -/
def get_wmctrl_items (output : String) : Except String (List WmctrlItem) :=
  get_wmctrl_items_loop (pyLines output)

/-- `WindowManager.try_get_wmctrl_item`: first listed item whose title
satisfies the predicate (`some item` plays the source's `(item, True)`,
`none` its `(None, False)`). -/
def try_get_wmctrl_item (pred : String → Bool) (output : String) :
    Except String (Option WmctrlItem) :=
  match get_wmctrl_items output with
  | Except.error e => Except.error e
  | Except.ok items => Except.ok (items.find? (fun it => pred it.title))

/-- The loop of `WindowManager.is_window_open`: for each line it tests the
predicate on `line.split(sep=None, maxsplit=3)[-1]` (the last piece; indexing
an empty split raises `IndexError`), returning `True` on the first hit. -/
def is_window_open_loop (pred : String → Bool) : List String → Except String Bool
  | [] => Except.ok false
  | l :: ls =>
    match (pySplit 3 l).getLast? with
    | none => Except.error "IndexError: list index out of range"
    | some last =>
      if pred last then Except.ok true else is_window_open_loop pred ls

/-- `WindowManager.is_window_open`, as a function of the `wmctrl -l` output. -/
def is_window_open (pred : String → Bool) (output : String) : Except String Bool :=
  is_window_open_loop pred (pyLines output)

/-- `WindowManager.close_window`: one `wmctrl -ic {id}` command per matching
item, in listed order; the returned list records the issued commands. -/
def close_window (pred : String → Bool) (output : String) :
    Except String (List String) :=
  match get_wmctrl_items output with
  | Except.error e => Except.error e
  | Except.ok items =>
    Except.ok ((items.filter (fun it => pred it.title)).map
      (fun it => "wmctrl -ic " ++ it.window_id))

/-- `WindowManager.virt_manager_target_title`: exact equality with
`"{domain} on QEMU/KVM"`. -/
def virt_manager_target_title (domain : String) : String → Bool :=
  fun title => title == domain ++ " on QEMU/KVM"

/-- Observable outcome of `WindowManager.open_virt_manager`: the launch
command issued, how many times the window list was polled, how many 0.1 s
sleeps were performed, and the `wmctrl -ia` activation command, if any. -/
structure OpenResult where
  launchCmd : String
  polls : Nat
  sleeps : Nat
  activateCmd : Option String
deriving DecidableEq

/-- The `for _ in range(10)` focus loop of `WindowManager.open_virt_manager`:
at each attempt query the window list (attempt `k` sees the text
`listings k`); on a hit issue the activation command and `break` (no sleep);
on a miss sleep 0.1 s and continue. Returns (polls, sleeps, activation). -/
def focus_loop (pred : String → Bool) (listings : Nat → String) :
    Nat → Nat → Except String (Nat × Nat × Option String)
  | _, 0 => Except.ok (0, 0, none)
  | k, fuel + 1 =>
    match try_get_wmctrl_item pred (listings k) with
    | Except.error e => Except.error e
    | Except.ok (some item) => Except.ok (1, 0, some ("wmctrl -ia " ++ item.window_id))
    | Except.ok none =>
      match focus_loop pred listings (k + 1) fuel with
      | Except.error e => Except.error e
      | Except.ok (p, s, act) => Except.ok (p + 1, s + 1, act)

/-- `WindowManager.open_virt_manager`: launch the console viewer, then run the
bounded focus loop (10 attempts); `listings k` is the `wmctrl -l` output seen
by attempt `k`. -/
def open_virt_manager (domain : String) (listings : Nat → String) :
    Except String OpenResult :=
  match focus_loop (virt_manager_target_title domain) listings 0 10 with
  | Except.error e => Except.error e
  | Except.ok (p, s, act) =>
    Except.ok ⟨"virt-manager --connect=qemu:///system --show-domain-console=" ++ domain,
      p, s, act⟩

/-- Outcome of `WindowManager.trigger_virt_manager`: either the close commands
issued, or the result of opening a console. -/
inductive TriggerResult where
  | closed : List String → TriggerResult
  | opened : OpenResult → TriggerResult
deriving DecidableEq

/-- `WindowManager.trigger_virt_manager`: if a window with the target title is
open, close all such windows, else open the console. `l1` is the `wmctrl -l`
output seen by `is_window_open`, `l2` the one seen by `close_window` (the
source runs the command twice). -/
def trigger_virt_manager (domain : String) (l1 l2 : String)
    (listings : Nat → String) : Except String TriggerResult :=
  match is_window_open (virt_manager_target_title domain) l1 with
  | Except.error e => Except.error e
  | Except.ok true =>
    match close_window (virt_manager_target_title domain) l2 with
    | Except.error e => Except.error e
    | Except.ok cmds => Except.ok (TriggerResult.closed cmds)
  | Except.ok false =>
    match open_virt_manager domain listings with
    | Except.error e => Except.error e
    | Except.ok r => Except.ok (TriggerResult.opened r)

/-- A well-formed `wmctrl -l` output: every line splits into exactly four
pieces, i.e. has at least four whitespace-delimited fields. -/
def wfListing (output : String) : Bool :=
  (pyLines output).all (fun l => (pySplit 3 l).length == 4)

/-! ## LibvirtManager

The hypervisor connection is an oracle (`Conn`); the mutable world (active
domains, filesystem, notification log) is threaded explicitly. A mutator
returns the world reached so far together with `some e` when the underlying
Python code raises (side effects performed before the raise are kept, as in
Python), or `none` on success. -/

/-- Identity of a notification sink: the process-wide default
(`show_message = print` in `LibvirtManager.__init__`) or the
`trayIcon.showMessage` closure built in `VirtTray.create_tray_icon` for one
domain's menu. -/
inductive Sink where
  | defaultPrint : Sink
  | trayNotify : String → Sink
deriving DecidableEq

/-- The observable world: which domains the hypervisor reports active, which
filesystem paths exist, and the notifications emitted so far (each tagged
with the sink that received it). -/
structure World where
  active : List String
  files : List String
  log : List (Sink × String)
deriving DecidableEq

/-- Oracle for the external libvirt connection: the domains
`conn.lookupByName` succeeds on, and the failures, if any, of the external
`dom.save(path)` (by domain) and `conn.restore(path)` (by path) calls. -/
structure Conn where
  known : List String
  saveErr : String → Option String
  restoreErr : String → Option String

/-- `LibvirtManager.__init__`: stores the connection and the injected
notification sink (`show_message`, defaulting to `print`). -/
structure LibvirtManager where
  conn : Conn
  show_message : Sink

/-- Emitting one notification through the manager's sink appends it to the
world's log. -/
def emit (m : LibvirtManager) (msg : String) (w : World) : World :=
  { w with log := w.log ++ [(m.show_message, msg)] }

/-- `conn.lookupByName(domain)`: raises `libvirtError` when the domain is
unknown to the hypervisor. -/
def lookupByName (conn : Conn) (d : String) : Except String Unit :=
  if conn.known.contains d then Except.ok ()
  else Except.error ("libvirtError: Domain not found: " ++ d)

/-- `LibvirtManager.get_save_path`: the fixed save-file path for a domain. -/
def get_save_path (d : String) : String :=
  "/var/lib/libvirt/qemu/save/" ++ d ++ ".save"

/-- `LibvirtManager.is_saved`: `os.path.exists` on the fixed save path — a
pure filesystem existence test on the current world. -/
def LibvirtManager.is_saved (_m : LibvirtManager) (d : String) (w : World) : Bool :=
  w.files.contains (get_save_path d)

/-- `LibvirtManager.is_running`: look the domain up by name (raising if it is
unknown) and report whether it is active. -/
def LibvirtManager.is_running (m : LibvirtManager) (d : String) (w : World) :
    Except String Bool :=
  match lookupByName m.conn d with
  | Except.error e => Except.error e
  | Except.ok _ => Except.ok (w.active.contains d)

/-- External `dom.save(path)` call: per the libvirt contract (spec section 4.4,
"writes live memory/device state to the deterministic save path"), on success
it creates the file at `path` and stops the domain; on failure it raises. -/
def domSave (conn : Conn) (d path : String) (w : World) : World × Option String :=
  match conn.saveErr d with
  | some e => (w, some e)
  | none => ({ w with files := w.files ++ [path], active := w.active.erase d }, none)

/-- External `conn.restore(path)` call: per the libvirt contract (spec section
4.4, restoring "also implicitly starts the domain" and the save file "is
expected to be consumed"), on success it removes the file and starts the
domain `d` whose state the file holds; on failure it raises. -/
def connRestore (conn : Conn) (d path : String) (w : World) : World × Option String :=
  match conn.restoreErr path with
  | some e => (w, some e)
  | none => ({ w with files := w.files.erase path, active := w.active ++ [d] }, none)

/-- `LibvirtManager.save`: emit "saving {d}", look the domain up, issue
`dom.save(get_save_path d)`, emit "saved to {path}". -/
def LibvirtManager.save (m : LibvirtManager) (d : String) (w : World) :
    World × Option String :=
  let w1 := emit m ("saving " ++ d) w
  match lookupByName m.conn d with
  | Except.error e => (w1, some e)
  | Except.ok _ =>
    match domSave m.conn d (get_save_path d) w1 with
    | (w2, some e) => (w2, some e)
    | (w2, none) => (emit m ("saved to " ++ get_save_path d) w2, none)

/-- `LibvirtManager.restore`: emit "restoring {d}", issue
`conn.restore(get_save_path d)`, emit "restored from {path}". -/
def LibvirtManager.restore (m : LibvirtManager) (d : String) (w : World) :
    World × Option String :=
  let w1 := emit m ("restoring " ++ d) w
  match connRestore m.conn d (get_save_path d) w1 with
  | (w2, some e) => (w2, some e)
  | (w2, none) => (emit m ("restored from " ++ get_save_path d) w2, none)

/-! ## VirtTray orchestration -/

/-- One configuration record (source: `Item`). -/
structure Item where
  icon : String
  domain : String
deriving DecidableEq

/-- `VirtTray.save_all`: for each configured item in order, if the domain is
running, save it. No per-iteration exception handling: a raise (from
`is_running` or `save`) ends the loop with the world reached so far. -/
def save_all (m : LibvirtManager) : List Item → World → World × Option String
  | [], w => (w, none)
  | it :: rest, w =>
    match m.is_running it.domain w with
    | Except.error e => (w, some e)
    | Except.ok true =>
      match m.save it.domain w with
      | (w1, some e) => (w1, some e)
      | (w1, none) => save_all m rest w1
    | Except.ok false => save_all m rest w

/-- `VirtTray.restore_all`: for each configured item in order, if the domain
has a save file, restore it. No per-iteration exception handling. -/
def restore_all (m : LibvirtManager) : List Item → World → World × Option String
  | [], w => (w, none)
  | it :: rest, w =>
    if m.is_saved it.domain w then
      match m.restore it.domain w with
      | (w1, some e) => (w1, some e)
      | (w1, none) => restore_all m rest w1
    else restore_all m rest w

/-- Enablement of the four single-domain menu actions. -/
structure MenuState where
  startEnabled : Bool
  forceShutdownEnabled : Bool
  saveEnabled : Bool
  restoreEnabled : Bool
deriving DecidableEq

/-- The `update_menu` hook of `VirtTray.create_tray_icon`, run every time the
menu is about to be shown: re-derives each action's enablement from fresh
`is_running`/`is_saved` queries against the current world (the source queries
`is_running` three times and `is_saved` twice). -/
def update_menu (m : LibvirtManager) (d : String) (w : World) :
    Except String MenuState :=
  match m.is_running d w with
  | Except.error e => Except.error e
  | Except.ok r1 =>
    match m.is_running d w with
    | Except.error e => Except.error e
    | Except.ok r2 =>
      match m.is_running d w with
      | Except.error e => Except.error e
      | Except.ok r3 =>
        Except.ok ⟨!r1, r2, r3 && !(m.is_saved d w), m.is_saved d w⟩

/-- The `LibvirtManager()` constructed in `main` and stored as
`VirtTray.virt`: default sink, i.e. `print`. The batch actions
(`save_all` / `restore_all`) run against this manager. -/
def mkStartupManager (conn : Conn) : LibvirtManager :=
  ⟨conn, Sink.defaultPrint⟩

/-- The `LibvirtManager(show_message=trayIcon.showMessage)` constructed in
`VirtTray.create_tray_icon` for one domain's menu: its sink raises a tray
notification for that domain's icon. The single-domain menu actions run
against this manager. -/
def mkTrayManager (conn : Conn) (d : String) : LibvirtManager :=
  ⟨conn, Sink.trayNotify d⟩

/-- The `saveAction.triggered` handler for one domain's menu:
`virt.save(item.domain)` with `virt` the tray-sink manager. -/
def menuSaveHandler (conn : Conn) (d : String) (w : World) : World × Option String :=
  (mkTrayManager conn d).save d w

/-- The `restoreAction.triggered` handler for one domain's menu. -/
def menuRestoreHandler (conn : Conn) (d : String) (w : World) : World × Option String :=
  (mkTrayManager conn d).restore d w

/-- The `saveAllAction.triggered` handler: `self.save_all`, running against
the startup (default-sink) manager. -/
def saveAllHandler (conn : Conn) (items : List Item) (w : World) :
    World × Option String :=
  save_all (mkStartupManager conn) items w

/-- The `restoreAllAction.triggered` handler: `self.restore_all`, running
against the startup (default-sink) manager. -/
def restoreAllHandler (conn : Conn) (items : List Item) (w : World) :
    World × Option String :=
  restore_all (mkStartupManager conn) items w

/-- A concrete connection oracle for example instantiations: a few known
domains, every external hypervisor call succeeds. -/
def exConn : Conn :=
  ⟨["web01", "vm1", "a", "b", "c"], fun _ => none, fun _ => none⟩

/-- A concrete connection oracle for example instantiations in which the
external save call for domain a and the external restore call for a's save
file fail. -/
def exConnFail : Conn :=
  ⟨["a", "b"], fun d => if d == "a" then some "ioerror" else none,
    fun p => if p == get_save_path "a" then some "ioerror" else none⟩

/-! ## Lemmas about the Python split -/

lemma isPySpace_space : isPySpace ' ' = true := by decide

lemma takeWhile_token (t rest : List Char) (h : ∀ c ∈ t, isPySpace c = false) :
    (t ++ ' ' :: rest).takeWhile (fun ch => !isPySpace ch) = t := by
  induction t with
  | nil => simp [List.takeWhile_cons, isPySpace_space]
  | cons a t ih =>
    have ha : isPySpace a = false := h a (List.mem_cons_self a t)
    simp [List.takeWhile_cons, ha, ih (fun c hc => h c (List.mem_cons_of_mem a hc))]

lemma dropWhile_token (t rest : List Char) (h : ∀ c ∈ t, isPySpace c = false) :
    (t ++ ' ' :: rest).dropWhile (fun ch => !isPySpace ch) = ' ' :: rest := by
  induction t with
  | nil => simp [List.dropWhile_cons, isPySpace_space]
  | cons a t ih =>
    have ha : isPySpace a = false := h a (List.mem_cons_self a t)
    simp [List.dropWhile_cons, ha, ih (fun c hc => h c (List.mem_cons_of_mem a hc))]

lemma takeWhile_token_all (t : List Char) (h : ∀ c ∈ t, isPySpace c = false) :
    t.takeWhile (fun ch => !isPySpace ch) = t := by
  induction t with
  | nil => rfl
  | cons a t ih =>
    have ha : isPySpace a = false := h a (List.mem_cons_self a t)
    simp [List.takeWhile_cons, ha, ih (fun c hc => h c (List.mem_cons_of_mem a hc))]

lemma dropWhile_token_all (t : List Char) (h : ∀ c ∈ t, isPySpace c = false) :
    t.dropWhile (fun ch => !isPySpace ch) = [] := by
  induction t with
  | nil => rfl
  | cons a t ih =>
    have ha : isPySpace a = false := h a (List.mem_cons_self a t)
    simp [List.dropWhile_cons, ha, ih (fun c hc => h c (List.mem_cons_of_mem a hc))]

lemma dropWhile_space_cons (a : Char) (t : List Char) (ha : isPySpace a = false) :
    (a :: t).dropWhile isPySpace = a :: t := by
  simp [List.dropWhile_cons, ha]

lemma pySplitAux_token (ms : Nat) (a : Char) (t rest : List Char)
    (h : ∀ c ∈ a :: t, isPySpace c = false) :
    pySplitAux (ms + 1) ((a :: t) ++ ' ' :: rest) =
      String.mk (a :: t) :: pySplitAux ms rest := by
  have ha : isPySpace a = false := h a (List.mem_cons_self a t)
  have ht : ∀ c ∈ t, isPySpace c = false := fun c hc => h c (List.mem_cons_of_mem a hc)
  unfold pySplitAux
  rw [List.cons_append, dropWhile_space_cons a (t ++ ' ' :: rest) ha]
  have h1 : (a :: (t ++ ' ' :: rest)).takeWhile (fun ch => !isPySpace ch) = a :: t := by
    simp [List.takeWhile_cons, ha, takeWhile_token t rest ht]
  have h2 : ((a :: (t ++ ' ' :: rest)).dropWhile (fun ch => !isPySpace ch)).dropWhile
      isPySpace = rest.dropWhile isPySpace := by
    simp [List.dropWhile_cons, ha, dropWhile_token t rest ht, isPySpace_space]
  simp [pySplitCore, h1, h2]

lemma pySplitAux_last (ms : Nat) (a : Char) (t : List Char)
    (h : ∀ c ∈ a :: t, isPySpace c = false) :
    pySplitAux (ms + 1) (a :: t) = [String.mk (a :: t)] := by
  have ha : isPySpace a = false := h a (List.mem_cons_self a t)
  have ht : ∀ c ∈ t, isPySpace c = false := fun c hc => h c (List.mem_cons_of_mem a hc)
  unfold pySplitAux
  rw [dropWhile_space_cons a t ha]
  have h1 : (a :: t).takeWhile (fun ch => !isPySpace ch) = a :: t := by
    simp [List.takeWhile_cons, ha, takeWhile_token_all t ht]
  have h2 : ((a :: t).dropWhile (fun ch => !isPySpace ch)).dropWhile isPySpace = [] := by
    simp [List.dropWhile_cons, ha, dropWhile_token_all t ht]
  simp [pySplitCore, h1, h2]

lemma pySplitAux_zero (a : Char) (t : List Char) (ha : isPySpace a = false) :
    pySplitAux 0 (a :: t) = [String.mk (a :: t)] := by
  unfold pySplitAux
  rw [dropWhile_space_cons a t ha]
  simp [pySplitCore]

lemma token_data (s : String) (h : isTokenStr s = true) :
    ∃ a t, s.data = a :: t ∧ ∀ c ∈ a :: t, isPySpace c = false := by
  unfold isTokenStr at h
  simp only [Bool.and_eq_true] at h
  obtain ⟨h1, h2⟩ := h
  cases hs : s.data with
  | nil => rw [hs] at h1; simp at h1
  | cons a t =>
    refine ⟨a, t, rfl, ?_⟩
    intro c hc
    have hall := List.all_eq_true.mp h2
    rw [hs] at hall
    simpa using hall c hc

lemma title_data (s : String) (h : isTitleStr s = true) :
    ∃ a t, s.data = a :: t ∧ isPySpace a = false := by
  unfold isTitleStr at h
  cases hs : s.data with
  | nil => rw [hs] at h; simp at h
  | cons a t =>
    rw [hs] at h
    exact ⟨a, t, rfl, by simpa using h⟩

lemma string_mk_data (s : String) : String.mk s.data = s := rfl

lemma pySplit_cons_token (ms : Nat) (tok rest : String) (htok : isTokenStr tok = true) :
    pySplit (ms + 1) (tok ++ " " ++ rest) = tok :: pySplit ms rest := by
  obtain ⟨a, t, hdata, hall⟩ := token_data tok htok
  unfold pySplit
  have hline : (tok ++ " " ++ rest).data = (a :: t) ++ ' ' :: rest.data := by
    rw [String.data_append, String.data_append, hdata]
    simp
  rw [hline, pySplitAux_token ms a t rest.data hall, ← hdata, string_mk_data]

lemma pySplit_last_token (ms : Nat) (tok : String) (htok : isTokenStr tok = true) :
    pySplit (ms + 1) tok = [tok] := by
  obtain ⟨a, t, hdata, hall⟩ := token_data tok htok
  unfold pySplit
  rw [hdata, pySplitAux_last ms a t hall, ← hdata, string_mk_data]

lemma pySplit_title (d : String) (hd : isTitleStr d = true) :
    pySplit 0 d = [d] := by
  obtain ⟨a, t, hdata, ha⟩ := title_data d hd
  unfold pySplit
  rw [hdata, pySplitAux_zero a t ha, ← hdata, string_mk_data]

lemma pySplit_four (a b c d : String) (ha : isTokenStr a = true)
    (hb : isTokenStr b = true) (hc : isTokenStr c = true) (hd : isTitleStr d = true) :
    pySplit 3 (a ++ " " ++ b ++ " " ++ c ++ " " ++ d) = [a, b, c, d] := by
  have hassoc : a ++ " " ++ b ++ " " ++ c ++ " " ++ d
      = a ++ " " ++ (b ++ " " ++ (c ++ " " ++ d)) := by
    simp [String.append_assoc]
  rw [hassoc, show (3 : Nat) = 2 + 1 from rfl,
    pySplit_cons_token 2 a (b ++ " " ++ (c ++ " " ++ d)) ha,
    show (2 : Nat) = 1 + 1 from rfl,
    pySplit_cons_token 1 b (c ++ " " ++ d) hb,
    show (1 : Nat) = 0 + 1 from rfl,
    pySplit_cons_token 0 c d hc,
    pySplit_title d hd]

lemma pySplit_three (a b c : String) (ha : isTokenStr a = true)
    (hb : isTokenStr b = true) (hc : isTokenStr c = true) :
    pySplit 3 (a ++ " " ++ b ++ " " ++ c) = [a, b, c] := by
  have hassoc : a ++ " " ++ b ++ " " ++ c = a ++ " " ++ (b ++ " " ++ c) := by
    simp [String.append_assoc]
  rw [hassoc, show (3 : Nat) = 2 + 1 from rfl,
    pySplit_cons_token 2 a (b ++ " " ++ c) ha,
    show (2 : Nat) = 1 + 1 from rfl,
    pySplit_cons_token 1 b c hb,
    show (1 : Nat) = 0 + 1 from rfl,
    pySplit_last_token 0 c hc]

/-! ## Lemmas about well-formed listings -/

lemma list_len4 {α : Type} (xs : List α) (h : xs.length = 4) :
    ∃ a b c d, xs = [a, b, c, d] := by
  match xs, h with
  | [a, b, c, d], _ => exact ⟨a, b, c, d, rfl⟩

lemma parse_of_len4 (l : String) (h : (pySplit 3 l).length = 4) :
    ∃ a b c d, pySplit 3 l = [a, b, c, d] ∧
      parseWmctrlLine l = Except.ok ⟨a, d⟩ ∧
      (pySplit 3 l).getLast? = some d := by
  obtain ⟨a, b, c, d, heq⟩ := list_len4 _ h
  exact ⟨a, b, c, d, heq, by simp [parseWmctrlLine, heq], by simp [heq]⟩

lemma get_loop_wf (ls : List String) (h : ∀ l ∈ ls, (pySplit 3 l).length = 4) :
    ∃ items, get_wmctrl_items_loop ls = Except.ok items ∧
      List.Forall₂ (fun (l : String) (it : WmctrlItem) =>
        (pySplit 3 l).getLast? = some it.title) ls items := by
  induction ls with
  | nil => exact ⟨[], rfl, List.Forall₂.nil⟩
  | cons l ls ih =>
    obtain ⟨a, b, c, d, heq, hparse, hlast⟩ := parse_of_len4 l (h l (by simp))
    obtain ⟨items, hok, hrel⟩ := ih (fun x hx => h x (by simp [hx]))
    refine ⟨⟨a, d⟩ :: items, ?_, List.Forall₂.cons hlast hrel⟩
    simp [get_wmctrl_items_loop, hparse, hok]

lemma get_loop_error (ls : List String) (l : String) (e : String)
    (hl : l ∈ ls) (he : parseWmctrlLine l = Except.error e) :
    ∃ e2, get_wmctrl_items_loop ls = Except.error e2 := by
  induction ls with
  | nil => simp at hl
  | cons x ls ih =>
    cases hx : parseWmctrlLine x with
    | error e3 => exact ⟨e3, by simp [get_wmctrl_items_loop, hx]⟩
    | ok it =>
      have hl2 : l ∈ ls := by
        rcases List.mem_cons.mp hl with h1 | h1
        · rw [h1] at he; rw [he] at hx; cases hx
        · exact h1
      obtain ⟨e2, h2⟩ := ih hl2
      exact ⟨e2, by simp [get_wmctrl_items_loop, hx, h2]⟩

lemma iwo_loop_eq (pred : String → Bool) (ls : List String) (items : List WmctrlItem)
    (hrel : List.Forall₂ (fun (l : String) (it : WmctrlItem) =>
      (pySplit 3 l).getLast? = some it.title) ls items) :
    is_window_open_loop pred ls = Except.ok (items.any (fun it => pred it.title)) := by
  induction hrel with
  | nil => rfl
  | cons hl hrest ih =>
    rename_i l it ls2 items2
    cases hp : pred it.title with
    | true => simp [is_window_open_loop, hl, hp]
    | false => simp [is_window_open_loop, hl, hp, ih]

lemma wf_iff (out : String) :
    wfListing out = true ↔ ∀ l ∈ pyLines out, (pySplit 3 l).length = 4 := by
  simp [wfListing, List.all_eq_true]

lemma get_wmctrl_items_wf (out : String) (h : wfListing out = true) :
    ∃ items, get_wmctrl_items out = Except.ok items ∧
      List.Forall₂ (fun (l : String) (it : WmctrlItem) =>
        (pySplit 3 l).getLast? = some it.title) (pyLines out) items :=
  get_loop_wf (pyLines out) ((wf_iff out).mp h)

lemma is_window_open_eq_any (pred : String → Bool) (out : String)
    (items : List WmctrlItem)
    (hrel : List.Forall₂ (fun (l : String) (it : WmctrlItem) =>
      (pySplit 3 l).getLast? = some it.title) (pyLines out) items) :
    is_window_open pred out = Except.ok (items.any (fun it => pred it.title)) :=
  iwo_loop_eq pred (pyLines out) items hrel

/-! ## Lemmas about the focus-polling loop -/

lemma try_get_wf (pred : String → Bool) (out : String) (h : wfListing out = true) :
    ∃ o, try_get_wmctrl_item pred out = Except.ok o := by
  obtain ⟨items, hok, _⟩ := get_wmctrl_items_wf out h
  exact ⟨items.find? (fun it => pred it.title), by simp [try_get_wmctrl_item, hok]⟩

lemma focus_loop_bounds (pred : String → Bool) (listings : Nat → String) :
    ∀ fuel k,
      (∀ i, i < fuel → ∃ o, try_get_wmctrl_item pred (listings (k + i)) = Except.ok o) →
      ∃ p s act, focus_loop pred listings k fuel = Except.ok (p, s, act) ∧
        p ≤ fuel ∧ s ≤ fuel := by
  intro fuel
  induction fuel with
  | zero =>
    intro k _
    exact ⟨0, 0, none, rfl, Nat.le_refl 0, Nat.le_refl 0⟩
  | succ fuel ih =>
    intro k h
    obtain ⟨o, ho⟩ := h 0 (Nat.succ_pos fuel)
    rw [Nat.add_zero] at ho
    cases o with
    | some item =>
      refine ⟨1, 0, some ("wmctrl -ia " ++ item.window_id), ?_, by omega, by omega⟩
      simp [focus_loop, ho]
    | none =>
      have hnext : ∀ i, i < fuel →
          ∃ o, try_get_wmctrl_item pred (listings (k + 1 + i)) = Except.ok o := by
        intro i hi
        have h2 := h (i + 1) (by omega)
        rwa [show k + (i + 1) = k + 1 + i from by omega] at h2
      obtain ⟨p, s, act, hfl, hp, hs⟩ := ih (k + 1) hnext
      refine ⟨p + 1, s + 1, act, ?_, by omega, by omega⟩
      simp [focus_loop, ho, hfl]

lemma focus_loop_all_none (pred : String → Bool) (listings : Nat → String) :
    ∀ fuel k,
      (∀ i, i < fuel → try_get_wmctrl_item pred (listings (k + i)) = Except.ok none) →
      focus_loop pred listings k fuel = Except.ok (fuel, fuel, none) := by
  intro fuel
  induction fuel with
  | zero => intro k _; rfl
  | succ fuel ih =>
    intro k h
    have h0 := h 0 (Nat.succ_pos fuel)
    rw [Nat.add_zero] at h0
    have hnext : ∀ i, i < fuel →
        try_get_wmctrl_item pred (listings (k + 1 + i)) = Except.ok none := by
      intro i hi
      have h2 := h (i + 1) (by omega)
      rwa [show k + (i + 1) = k + 1 + i from by omega] at h2
    simp [focus_loop, h0, ih (k + 1) hnext]

lemma focus_loop_first_some (pred : String → Bool) (listings : Nat → String) :
    ∀ fuel k j item, j < fuel →
      (∀ i, i < j → try_get_wmctrl_item pred (listings (k + i)) = Except.ok none) →
      try_get_wmctrl_item pred (listings (k + j)) = Except.ok (some item) →
      focus_loop pred listings k fuel =
        Except.ok (j + 1, j, some ("wmctrl -ia " ++ item.window_id)) := by
  intro fuel
  induction fuel with
  | zero =>
    intro k j item hj _ _
    exact absurd hj (Nat.not_lt_zero j)
  | succ fuel ih =>
    intro k j item hj hnone hsome
    cases j with
    | zero =>
      rw [Nat.add_zero] at hsome
      simp [focus_loop, hsome]
    | succ j =>
      have h0 := hnone 0 (Nat.succ_pos j)
      rw [Nat.add_zero] at h0
      have hnone2 : ∀ i, i < j →
          try_get_wmctrl_item pred (listings (k + 1 + i)) = Except.ok none := by
        intro i hi
        have h2 := hnone (i + 1) (by omega)
        rwa [show k + (i + 1) = k + 1 + i from by omega] at h2
      have hsome2 : try_get_wmctrl_item pred (listings (k + 1 + j)) =
          Except.ok (some item) := by
        rwa [show k + (j + 1) = k + 1 + j from by omega] at hsome
      simp [focus_loop, h0, ih (k + 1) j item (by omega) hnone2 hsome2]

/-! ## Lemmas about the hypervisor model -/

lemma contains_iff (l : List String) (x : String) : l.contains x = true ↔ x ∈ l := by
  simp [List.contains]

lemma get_save_path_inj (a c : String) (h : get_save_path a = get_save_path c) :
    a = c := by
  have hd := congrArg String.data h
  simp only [get_save_path, String.data_append, List.append_assoc] at hd
  exact String.ext (List.append_cancel_right (List.append_cancel_left hd))

lemma contains_erase_false (l : List String) (x y : String)
    (h : l.contains x = false) : (l.erase y).contains x = false := by
  cases hc : (l.erase y).contains x with
  | false => rfl
  | true =>
    have hx : x ∈ l := List.mem_of_mem_erase ((contains_iff _ _).mp hc)
    have h2 := (contains_iff l x).mpr hx
    rw [h] at h2
    cases h2

lemma contains_erase_of_ne (l : List String) (x y : String) (hxy : x ≠ y)
    (h : l.contains x = true) : (l.erase y).contains x = true :=
  (contains_iff _ _).mpr ((List.mem_erase_of_ne hxy).mpr ((contains_iff _ _).mp h))

lemma save_ok (m : LibvirtManager) (d : String) (w : World)
    (hk : m.conn.known.contains d = true) (he : m.conn.saveErr d = none) :
    m.save d w = (⟨w.active.erase d, w.files ++ [get_save_path d],
      w.log ++ [(m.show_message, "saving " ++ d),
        (m.show_message, "saved to " ++ get_save_path d)]⟩, none) := by
  have hk2 : d ∈ m.conn.known := (contains_iff _ _).mp hk
  simp [LibvirtManager.save, emit, lookupByName, hk2, domSave, he]

lemma restore_ok (m : LibvirtManager) (d : String) (w : World)
    (he : m.conn.restoreErr (get_save_path d) = none) :
    m.restore d w = (⟨w.active ++ [d], w.files.erase (get_save_path d),
      w.log ++ [(m.show_message, "restoring " ++ d),
        (m.show_message, "restored from " ++ get_save_path d)]⟩, none) := by
  simp [LibvirtManager.restore, emit, connRestore, he]

lemma save_all_append (m : LibvirtManager) (items rest : List Item) :
    ∀ w, (save_all m items w).2.isSome →
      save_all m (items ++ rest) w = save_all m items w := by
  induction items with
  | nil => intro w h; simp [save_all] at h
  | cons it its ih =>
    intro w h
    rw [List.cons_append]
    cases hr : m.is_running it.domain w with
    | error e => simp [save_all, hr]
    | ok b =>
      cases b with
      | false =>
        have h2 : (save_all m its w).2.isSome := by simpa [save_all, hr] using h
        simp [save_all, hr, ih w h2]
      | true =>
        cases hs : m.save it.domain w with
        | mk w1 err =>
          cases err with
          | some e => simp [save_all, hr, hs]
          | none =>
            have h2 : (save_all m its w1).2.isSome := by
              simpa [save_all, hr, hs] using h
            simp [save_all, hr, hs, ih w1 h2]

lemma restore_all_append (m : LibvirtManager) (items rest : List Item) :
    ∀ w, (restore_all m items w).2.isSome →
      restore_all m (items ++ rest) w = restore_all m items w := by
  induction items with
  | nil => intro w h; simp [restore_all] at h
  | cons it its ih =>
    intro w h
    rw [List.cons_append]
    cases hsv : m.is_saved it.domain w with
    | false =>
      have h2 : (restore_all m its w).2.isSome := by simpa [restore_all, hsv] using h
      simp [restore_all, hsv, ih w h2]
    | true =>
      cases hre : m.restore it.domain w with
      | mk w1 err =>
        cases err with
        | some e => simp [restore_all, hsv, hre]
        | none =>
          have h2 : (restore_all m its w1).2.isSome := by
            simpa [restore_all, hsv, hre] using h
          simp [restore_all, hsv, hre, ih w1 h2]

lemma restore_all_cons_saved (m : LibvirtManager) (it : Item) (rest : List Item)
    (w w1 : World) (hs : m.is_saved it.domain w = true)
    (hr : m.restore it.domain w = (w1, none)) :
    restore_all m (it :: rest) w = restore_all m rest w1 := by
  simp [restore_all, hs, hr]

lemma restore_all_cons_unsaved (m : LibvirtManager) (it : Item) (rest : List Item)
    (w : World) (hs : m.is_saved it.domain w = false) :
    restore_all m (it :: rest) w = restore_all m rest w := by
  simp [restore_all, hs]

lemma mem_append_pair (w en : List (Sink × String)) (s : Sink)
    (hall : ∀ y ∈ en, y.1 = s) (x : Sink × String) (hx : x ∈ w ++ en) :
    x ∈ w ∨ x.1 = s := by
  rcases List.mem_append.mp hx with h | h
  · exact Or.inl h
  · exact Or.inr (hall x h)

lemma save_log_sinks (m : LibvirtManager) (d : String) (w : World) :
    ∀ x ∈ (m.save d w).1.log, x ∈ w.log ∨ x.1 = m.show_message := by
  intro x hx
  cases hl : lookupByName m.conn d with
  | error e =>
    have hlog : (m.save d w).1.log = w.log ++ [(m.show_message, "saving " ++ d)] := by
      simp [LibvirtManager.save, hl, emit]
    rw [hlog] at hx
    exact mem_append_pair _ _ _ (by simp) x hx
  | ok u =>
    cases he : m.conn.saveErr d with
    | some e =>
      have hlog : (m.save d w).1.log = w.log ++ [(m.show_message, "saving " ++ d)] := by
        simp [LibvirtManager.save, hl, emit, domSave, he]
      rw [hlog] at hx
      exact mem_append_pair _ _ _ (by simp) x hx
    | none =>
      have hlog : (m.save d w).1.log = w.log ++ [(m.show_message, "saving " ++ d),
          (m.show_message, "saved to " ++ get_save_path d)] := by
        simp [LibvirtManager.save, hl, emit, domSave, he]
      rw [hlog] at hx
      exact mem_append_pair _ _ _ (by simp) x hx

lemma restore_log_sinks (m : LibvirtManager) (d : String) (w : World) :
    ∀ x ∈ (m.restore d w).1.log, x ∈ w.log ∨ x.1 = m.show_message := by
  intro x hx
  cases he : m.conn.restoreErr (get_save_path d) with
  | some e =>
    have hlog : (m.restore d w).1.log = w.log ++ [(m.show_message, "restoring " ++ d)] := by
      simp [LibvirtManager.restore, emit, connRestore, he]
    rw [hlog] at hx
    exact mem_append_pair _ _ _ (by simp) x hx
  | none =>
    have hlog : (m.restore d w).1.log = w.log ++ [(m.show_message, "restoring " ++ d),
        (m.show_message, "restored from " ++ get_save_path d)] := by
      simp [LibvirtManager.restore, emit, connRestore, he]
    rw [hlog] at hx
    exact mem_append_pair _ _ _ (by simp) x hx

lemma save_all_log_sinks (m : LibvirtManager) (items : List Item) :
    ∀ w, ∀ x ∈ (save_all m items w).1.log, x ∈ w.log ∨ x.1 = m.show_message := by
  induction items with
  | nil => intro w x hx; exact Or.inl (by simpa [save_all] using hx)
  | cons it its ih =>
    intro w x hx
    cases hr : m.is_running it.domain w with
    | error e =>
      simp only [save_all, hr] at hx
      exact Or.inl hx
    | ok b =>
      cases b with
      | false =>
        simp only [save_all, hr] at hx
        exact ih w x hx
      | true =>
        cases hs : m.save it.domain w with
        | mk w1 err =>
          cases err with
          | some e =>
            simp only [save_all, hr, hs] at hx
            exact save_log_sinks m it.domain w x (by rw [hs]; exact hx)
          | none =>
            simp only [save_all, hr, hs] at hx
            rcases ih w1 x hx with h1 | h1
            · exact save_log_sinks m it.domain w x (by rw [hs]; exact h1)
            · exact Or.inr h1

lemma restore_all_log_sinks (m : LibvirtManager) (items : List Item) :
    ∀ w, ∀ x ∈ (restore_all m items w).1.log, x ∈ w.log ∨ x.1 = m.show_message := by
  induction items with
  | nil => intro w x hx; exact Or.inl (by simpa [restore_all] using hx)
  | cons it its ih =>
    intro w x hx
    cases hsv : m.is_saved it.domain w with
    | false =>
      simp only [restore_all, hsv] at hx
      exact ih w x hx
    | true =>
      cases hre : m.restore it.domain w with
      | mk w1 err =>
        cases err with
        | some e =>
          simp only [restore_all, hsv, hre] at hx
          exact restore_log_sinks m it.domain w x (by rw [hre]; exact hx)
        | none =>
          simp only [restore_all, hsv, hre] at hx
          rcases ih w1 x hx with h1 | h1
          · exact restore_log_sinks m it.domain w x (by rw [hre]; exact h1)
          · exact Or.inr h1

/-! ## Claims -/

/-- Claim C1: each run of the menu recompute hook re-derives the four
single-domain enablements from fresh queries against the current world:
Start is enabled iff the domain is not running, Force Shutdown iff it is
running, Save iff it is running and not saved, Restore iff it is saved
(independent of running-state); and the result depends only on the current
isRunning/isSaved facts, never on a cached flag. -/
theorem menu_enablement_fresh (m : LibvirtManager) (d : String) (w : World)
    (hk : m.conn.known.contains d = true) :
    update_menu m d w = Except.ok ⟨!(w.active.contains d), w.active.contains d,
      w.active.contains d && !(w.files.contains (get_save_path d)),
      w.files.contains (get_save_path d)⟩ ∧
    (∀ w2 : World, w.active.contains d = w2.active.contains d →
      w.files.contains (get_save_path d) = w2.files.contains (get_save_path d) →
      update_menu m d w = update_menu m d w2) := by
  have hk2 : d ∈ m.conn.known := (contains_iff _ _).mp hk
  have hmain : ∀ wx : World, update_menu m d wx =
      Except.ok ⟨!(wx.active.contains d), wx.active.contains d,
        wx.active.contains d && !(wx.files.contains (get_save_path d)),
        wx.files.contains (get_save_path d)⟩ := by
    intro wx
    simp [update_menu, LibvirtManager.is_running, lookupByName, hk2,
      LibvirtManager.is_saved]
  refine ⟨hmain w, ?_⟩
  intro w2 h1 h2
  rw [hmain w, hmain w2, h1, h2]

/-- Witness for menu_enablement_fresh: domain web01 known, not running, no
save file, so only Start is enabled. -/
theorem menu_enablement_fresh_witness :
    (mkStartupManager exConn).conn.known.contains "web01" = true ∧
    update_menu (mkStartupManager exConn) "web01" ⟨[], [], []⟩ =
      Except.ok ⟨true, false, false, false⟩ :=
  ⟨rfl, (menu_enablement_fresh (mkStartupManager exConn) "web01" ⟨[], [], []⟩ rfl).1⟩

/-- Claim C2: is_saved is exactly the filesystem existence test of the fixed
path "/var/lib/libvirt/qemu/save/{D}.save" against the current world, and is
independent of the manager (in particular of its hypervisor connection). -/
theorem is_saved_filesystem (m : LibvirtManager) (d : String) (w : World) :
    (m.is_saved d w = true ↔ ("/var/lib/libvirt/qemu/save/" ++ d ++ ".save") ∈ w.files) ∧
    (∀ m2 : LibvirtManager, m.is_saved d w = m2.is_saved d w) :=
  ⟨contains_iff w.files (get_save_path d), fun _ => rfl⟩

/-- Claim C3, counterexample: with domains a and b both running and the
external save of a failing, Save All stops after a — b receives no "saving b"
notification and stays running and unsaved; likewise Restore All stops before
b when restoring a fails. So a per-domain failure does NOT leave the
remaining domains processed. -/
theorem batch_failure_isolation_counterexample :
    save_all (mkStartupManager exConnFail) [⟨"a.png", "a"⟩, ⟨"b.png", "b"⟩]
        ⟨["a", "b"], [], []⟩ =
      (⟨["a", "b"], [], [(Sink.defaultPrint, "saving a")]⟩, some "ioerror") ∧
    restore_all (mkStartupManager exConnFail) [⟨"a.png", "a"⟩, ⟨"b.png", "b"⟩]
        ⟨[], [get_save_path "a", get_save_path "b"], []⟩ =
      (⟨[], [get_save_path "a", get_save_path "b"],
        [(Sink.defaultPrint, "restoring a")]⟩, some "ioerror") :=
  ⟨rfl, rfl⟩

/-- Claim C3, amended: Save All and Restore All iterate the configured
domains in configuration order but STOP at the first per-domain failure: once
processing a prefix of the configuration raises, the remaining items are
never processed and contribute nothing to the outcome. -/
theorem batch_aborts_on_failure (m : LibvirtManager) (items rest : List Item)
    (w : World) :
    ((save_all m items w).2.isSome = true →
      save_all m (items ++ rest) w = save_all m items w) ∧
    ((restore_all m items w).2.isSome = true →
      restore_all m (items ++ rest) w = restore_all m items w) :=
  ⟨save_all_append m items rest w, restore_all_append m items rest w⟩

/-- Witness for batch_aborts_on_failure: the failing batches of the
counterexample oracle, extended by a further item, give the same outcome. -/
theorem batch_aborts_on_failure_witness :
    ((save_all (mkStartupManager exConnFail) [⟨"a.png", "a"⟩]
        ⟨["a", "b"], [], []⟩).2.isSome = true ∧
      save_all (mkStartupManager exConnFail) ([⟨"a.png", "a"⟩] ++ [⟨"b.png", "b"⟩])
          ⟨["a", "b"], [], []⟩ =
        save_all (mkStartupManager exConnFail) [⟨"a.png", "a"⟩] ⟨["a", "b"], [], []⟩) ∧
    ((restore_all (mkStartupManager exConnFail) [⟨"a.png", "a"⟩]
        ⟨[], [get_save_path "a"], []⟩).2.isSome = true ∧
      restore_all (mkStartupManager exConnFail) ([⟨"a.png", "a"⟩] ++ [⟨"b.png", "b"⟩])
          ⟨[], [get_save_path "a"], []⟩ =
        restore_all (mkStartupManager exConnFail) [⟨"a.png", "a"⟩]
          ⟨[], [get_save_path "a"], []⟩) :=
  ⟨⟨rfl, (batch_aborts_on_failure (mkStartupManager exConnFail) [⟨"a.png", "a"⟩]
      [⟨"b.png", "b"⟩] ⟨["a", "b"], [], []⟩).1 rfl⟩,
    ⟨rfl, (batch_aborts_on_failure (mkStartupManager exConnFail) [⟨"a.png", "a"⟩]
      [⟨"b.png", "b"⟩] ⟨[], [get_save_path "a"], []⟩).2 rfl⟩⟩

/-- Claim C4, counterexample: on the listing line
"0x04000003 0 host My Window" the code's parser consumes THREE
whitespace-delimited tokens (id and two ignored metadata fields) before the
title, yielding title "My Window", while the claim's reading — two tokens
then the remainder — would yield title "host My Window". -/
theorem wmctrl_two_token_counterexample :
    parseWmctrlLine "0x04000003 0 host My Window" =
      Except.ok ⟨"0x04000003", "My Window"⟩ ∧
    parseWmctrlLineSpec "0x04000003 0 host My Window" =
      Except.ok ⟨"0x04000003", "host My Window"⟩ ∧
    ("My Window" : String) ≠ "host My Window" :=
  ⟨rfl, rfl, by decide⟩

/-- Claim C4, amended: get_wmctrl_items splits the command output into lines
and parses each line's first THREE whitespace-delimited tokens as id and two
ignored metadata fields, the entire remainder of the line becoming the title;
a malformed line (fewer than four fields) raises a parse error which
propagates to the caller with no per-line recovery. -/
theorem wmctrl_line_parsing (a b c d : String) (ha : isTokenStr a = true)
    (hb : isTokenStr b = true) (hc : isTokenStr c = true)
    (hd : isTitleStr d = true) :
    parseWmctrlLine (a ++ " " ++ b ++ " " ++ c ++ " " ++ d) = Except.ok ⟨a, d⟩ ∧
    parseWmctrlLine (a ++ " " ++ b ++ " " ++ c) =
      Except.error "ValueError: not enough values to unpack" ∧
    (∀ out l e2, l ∈ pyLines out → parseWmctrlLine l = Except.error e2 →
      ∃ e3, get_wmctrl_items out = Except.error e3) := by
  refine ⟨?_, ?_, ?_⟩
  · simp [parseWmctrlLine, pySplit_four a b c d ha hb hc hd]
  · simp [parseWmctrlLine, pySplit_three a b c ha hb hc]
  · intro out l e2 hl he
    exact get_loop_error (pyLines out) l e2 hl he

/-- Witness for wmctrl_line_parsing at the tokens of a realistic line. -/
theorem wmctrl_line_parsing_witness :
    (isTokenStr "0x04000003" = true ∧ isTokenStr "0" = true ∧
      isTokenStr "host" = true ∧ isTitleStr "My Window" = true) ∧
    parseWmctrlLine ("0x04000003" ++ " " ++ "0" ++ " " ++ "host" ++ " " ++ "My Window") =
      Except.ok ⟨"0x04000003", "My Window"⟩ :=
  ⟨⟨rfl, rfl, rfl, rfl⟩,
    (wmctrl_line_parsing "0x04000003" "0" "host" "My Window" rfl rfl rfl rfl).1⟩

/-- Claim C5: on a well-formed listing, is_window_open returns ok true iff at
least one listed window's title satisfies the predicate, returns ok false
(rather than failing) iff none does, and it returns ok true exactly when
try_get_wmctrl_item reports a found window on the same listing. -/
theorem window_exists_iff (pred : String → Bool) (out : String)
    (hwf : wfListing out = true) :
    ∃ items, get_wmctrl_items out = Except.ok items ∧
      (is_window_open pred out = Except.ok true ↔
        ∃ it ∈ items, pred it.title = true) ∧
      (is_window_open pred out = Except.ok false ↔
        ∀ it ∈ items, pred it.title = false) ∧
      (is_window_open pred out = Except.ok true ↔
        ∃ item, try_get_wmctrl_item pred out = Except.ok (some item)) := by
  obtain ⟨items, hok, hrel⟩ := get_wmctrl_items_wf out hwf
  have hiwo := is_window_open_eq_any pred out items hrel
  have htry : try_get_wmctrl_item pred out =
      Except.ok (items.find? (fun it => pred it.title)) := by
    simp [try_get_wmctrl_item, hok]
  refine ⟨items, hok, ?_, ?_, ?_⟩
  · rw [hiwo]
    simp [List.any_eq_true]
  · rw [hiwo]
    simp [List.any_eq_false]
  · rw [hiwo, htry]
    constructor
    · intro h
      have hany : items.any (fun it => pred it.title) = true := by simpa using h
      have hsome : (items.find? (fun it => pred it.title)).isSome = true :=
        List.find?_isSome.mpr (List.any_eq_true.mp hany)
      obtain ⟨item, hitem⟩ := Option.isSome_iff_exists.mp hsome
      exact ⟨item, by rw [hitem]⟩
    · rintro ⟨item, hitem⟩
      have hfind : items.find? (fun it => pred it.title) = some item := by
        simpa using hitem
      have hpred := List.find?_some hfind
      have hmem := List.mem_of_find?_eq_some hfind
      simp only [Except.ok.injEq, List.any_eq_true]
      exact ⟨item, hmem, hpred⟩

/-- Witness for window_exists_iff on a one-window listing matching vm1. -/
theorem window_exists_iff_witness :
    wfListing "0x1 0 host vm1 on QEMU/KVM" = true ∧
    ∃ items, get_wmctrl_items "0x1 0 host vm1 on QEMU/KVM" = Except.ok items ∧
      (is_window_open (virt_manager_target_title "vm1") "0x1 0 host vm1 on QEMU/KVM" =
          Except.ok true ↔
        ∃ it ∈ items, virt_manager_target_title "vm1" it.title = true) ∧
      (is_window_open (virt_manager_target_title "vm1") "0x1 0 host vm1 on QEMU/KVM" =
          Except.ok false ↔
        ∀ it ∈ items, virt_manager_target_title "vm1" it.title = false) ∧
      (is_window_open (virt_manager_target_title "vm1") "0x1 0 host vm1 on QEMU/KVM" =
          Except.ok true ↔
        ∃ item, try_get_wmctrl_item (virt_manager_target_title "vm1")
          "0x1 0 host vm1 on QEMU/KVM" = Except.ok (some item)) :=
  ⟨rfl, window_exists_iff (virt_manager_target_title "vm1")
    "0x1 0 host vm1 on QEMU/KVM" rfl⟩

/-- Claim C6: open_virt_manager launches the console-viewer command and polls
the window list at most 10 times with at most 10 sleeps of 0.1 s (so at most
~1 s of blocking past the launch); when the first j attempts fail and attempt
j finds the window, it issues the activation command for that window after
j+1 polls and j sleeps and stops; when all 10 attempts fail it returns
silently with no error, no activation and no further retry. -/
theorem open_console_bounded (domain : String) (listings : Nat → String)
    (hwf : ∀ k, k < 10 → wfListing (listings k) = true) :
    (∃ r, open_virt_manager domain listings = Except.ok r ∧
      r.launchCmd =
        "virt-manager --connect=qemu:///system --show-domain-console=" ++ domain ∧
      r.polls ≤ 10 ∧ r.sleeps ≤ 10) ∧
    ((∀ k, k < 10 → try_get_wmctrl_item (virt_manager_target_title domain)
        (listings k) = Except.ok none) →
      open_virt_manager domain listings = Except.ok
        ⟨"virt-manager --connect=qemu:///system --show-domain-console=" ++ domain,
          10, 10, none⟩) ∧
    (∀ j item, j < 10 →
      (∀ k, k < j → try_get_wmctrl_item (virt_manager_target_title domain)
        (listings k) = Except.ok none) →
      try_get_wmctrl_item (virt_manager_target_title domain) (listings j) =
        Except.ok (some item) →
      open_virt_manager domain listings = Except.ok
        ⟨"virt-manager --connect=qemu:///system --show-domain-console=" ++ domain,
          j + 1, j, some ("wmctrl -ia " ++ item.window_id)⟩) := by
  refine ⟨?_, ?_, ?_⟩
  · have hb := focus_loop_bounds (virt_manager_target_title domain) listings 10 0
      (fun i hi => by
        have := try_get_wf (virt_manager_target_title domain) (listings (0 + i))
          (hwf (0 + i) (by omega))
        exact this)
    obtain ⟨p, s, act, hfl, hp, hs⟩ := hb
    exact ⟨⟨_, p, s, act⟩, by simp [open_virt_manager, hfl], rfl, hp, hs⟩
  · intro hall
    have hfl := focus_loop_all_none (virt_manager_target_title domain) listings 10 0
      (fun i hi => by
        have := hall (0 + i) (by omega)
        exact this)
    simp [open_virt_manager, hfl]
  · intro j item hj hnone hsome
    have hfl := focus_loop_first_some (virt_manager_target_title domain) listings
      10 0 j item hj
      (fun i hi => by
        have := hnone (0 + i) (by omega)
        simpa using this)
      (by simpa using hsome)
    simp [open_virt_manager, hfl]

/-- Witness for open_console_bounded: a listing that never matches vm1, so
all 10 attempts fail and the call gives up silently after 10 polls and 10
sleeps. -/
theorem open_console_bounded_witness :
    (∀ k, k < 10 → wfListing ((fun _ => "0x1 0 host other") k) = true) ∧
    open_virt_manager "vm1" (fun _ => "0x1 0 host other") = Except.ok
      ⟨"virt-manager --connect=qemu:///system --show-domain-console=" ++ "vm1",
        10, 10, none⟩ :=
  ⟨fun _ _ => rfl,
    (open_console_bounded "vm1" (fun _ => "0x1 0 host other")
      (fun _ _ => rfl)).2.1 (fun _ _ => rfl)⟩

/-- Claim C7: trigger_virt_manager, on a well-formed listing, closes every
window whose title is exactly "{domain} on QEMU/KVM" — one wmctrl -ic command
per matching window, in listed order — when at least one such window exists,
and otherwise opens one console via open_virt_manager. -/
theorem toggle_console (domain : String) (out : String) (listings : Nat → String)
    (hwf : wfListing out = true) :
    ∃ items, get_wmctrl_items out = Except.ok items ∧
      ((∃ it ∈ items, it.title = domain ++ " on QEMU/KVM") →
        trigger_virt_manager domain out out listings = Except.ok
          (TriggerResult.closed
            ((items.filter (fun it => virt_manager_target_title domain it.title)).map
              (fun it => "wmctrl -ic " ++ it.window_id)))) ∧
      ((∀ it ∈ items, it.title ≠ domain ++ " on QEMU/KVM") →
        trigger_virt_manager domain out out listings =
          (open_virt_manager domain listings).map TriggerResult.opened) := by
  obtain ⟨items, hok, hrel⟩ := get_wmctrl_items_wf out hwf
  have hiwo := is_window_open_eq_any (virt_manager_target_title domain) out items hrel
  refine ⟨items, hok, ?_, ?_⟩
  · rintro ⟨it, hmem, heq⟩
    have hany : items.any (fun it => virt_manager_target_title domain it.title) = true :=
      List.any_eq_true.mpr ⟨it, hmem, by simp [virt_manager_target_title, heq]⟩
    have hiwo2 : is_window_open (virt_manager_target_title domain) out =
        Except.ok true := by rw [hiwo, hany]
    have hcw : close_window (virt_manager_target_title domain) out = Except.ok
        ((items.filter (fun it => virt_manager_target_title domain it.title)).map
          (fun it => "wmctrl -ic " ++ it.window_id)) := by
      simp [close_window, hok]
    simp [trigger_virt_manager, hiwo2, hcw]
  · intro hnone
    have hany : items.any (fun it => virt_manager_target_title domain it.title) =
        false :=
      List.any_eq_false.mpr (fun it hmem => by
        simp [virt_manager_target_title]
        exact hnone it hmem)
    have hiwo2 : is_window_open (virt_manager_target_title domain) out =
        Except.ok false := by rw [hiwo, hany]
    cases ho : open_virt_manager domain listings with
    | error e => simp [trigger_virt_manager, hiwo2, ho, Except.map]
    | ok r => simp [trigger_virt_manager, hiwo2, ho, Except.map]

/-- Witness for toggle_console: two windows with the identical target title
are both closed (one close command each). -/
theorem toggle_console_witness :
    wfListing "0x1 0 h vm1 on QEMU/KVM\n0x2 0 h vm1 on QEMU/KVM" = true ∧
    ∃ items, get_wmctrl_items "0x1 0 h vm1 on QEMU/KVM\n0x2 0 h vm1 on QEMU/KVM" =
        Except.ok items ∧
      ((∃ it ∈ items, it.title = "vm1" ++ " on QEMU/KVM") →
        trigger_virt_manager "vm1" "0x1 0 h vm1 on QEMU/KVM\n0x2 0 h vm1 on QEMU/KVM"
            "0x1 0 h vm1 on QEMU/KVM\n0x2 0 h vm1 on QEMU/KVM" (fun _ => "") =
          Except.ok (TriggerResult.closed
            ((items.filter (fun it => virt_manager_target_title "vm1" it.title)).map
              (fun it => "wmctrl -ic " ++ it.window_id)))) ∧
      ((∀ it ∈ items, it.title ≠ "vm1" ++ " on QEMU/KVM") →
        trigger_virt_manager "vm1" "0x1 0 h vm1 on QEMU/KVM\n0x2 0 h vm1 on QEMU/KVM"
            "0x1 0 h vm1 on QEMU/KVM\n0x2 0 h vm1 on QEMU/KVM" (fun _ => "") =
          (open_virt_manager "vm1" (fun _ => "")).map TriggerResult.opened) :=
  ⟨rfl, toggle_console "vm1" "0x1 0 h vm1 on QEMU/KVM\n0x2 0 h vm1 on QEMU/KVM"
    (fun _ => "") rfl⟩

/-- Claim C8: Restore All on a configuration [a (saved), b (not saved),
c (saved)] restores exactly a and then c, in configuration order, and never
calls restore on b: the emitted notifications are exactly the
restoring/restored pairs for a and then for c. -/
theorem restore_all_skips_unsaved (m : LibvirtManager) (a b c : String)
    (ia ib ic : Item) (w : World)
    (hia : ia.domain = a) (hib : ib.domain = b) (hic : ic.domain = c)
    (hac : a ≠ c)
    (hsa : w.files.contains (get_save_path a) = true)
    (hsb : w.files.contains (get_save_path b) = false)
    (hsc : w.files.contains (get_save_path c) = true)
    (hea : m.conn.restoreErr (get_save_path a) = none)
    (hec : m.conn.restoreErr (get_save_path c) = none) :
    ∃ w2, restore_all m [ia, ib, ic] w = (w2, none) ∧
      w2.log = w.log ++ [(m.show_message, "restoring " ++ a),
        (m.show_message, "restored from " ++ get_save_path a),
        (m.show_message, "restoring " ++ c),
        (m.show_message, "restored from " ++ get_save_path c)] := by
  subst hia; subst hib; subst hic
  have hpca : get_save_path ic.domain ≠ get_save_path ia.domain := fun h =>
    hac ((get_save_path_inj ic.domain ia.domain h).symm)
  have hr1 := restore_ok m ia.domain w hea
  have h1 : m.is_saved ia.domain w = true := hsa
  rw [restore_all_cons_saved m ia [ib, ic] w _ h1 hr1]
  have h2 : m.is_saved ib.domain
      ⟨w.active ++ [ia.domain], w.files.erase (get_save_path ia.domain),
        w.log ++ [(m.show_message, "restoring " ++ ia.domain),
          (m.show_message, "restored from " ++ get_save_path ia.domain)]⟩ = false :=
    contains_erase_false _ _ _ hsb
  rw [restore_all_cons_unsaved m ib [ic] _ h2]
  have h3 : m.is_saved ic.domain
      ⟨w.active ++ [ia.domain], w.files.erase (get_save_path ia.domain),
        w.log ++ [(m.show_message, "restoring " ++ ia.domain),
          (m.show_message, "restored from " ++ get_save_path ia.domain)]⟩ = true :=
    contains_erase_of_ne _ _ _ hpca hsc
  have hr3 := restore_ok m ic.domain
    (⟨w.active ++ [ia.domain], w.files.erase (get_save_path ia.domain),
      w.log ++ [(m.show_message, "restoring " ++ ia.domain),
        (m.show_message, "restored from " ++ get_save_path ia.domain)]⟩ : World) hec
  rw [restore_all_cons_saved m ic [] _ _ h3 hr3]
  refine ⟨_, rfl, ?_⟩
  simp [List.append_assoc]

/-- Witness for restore_all_skips_unsaved: domains a, b, c with save files
present for a and c only. -/
theorem restore_all_skips_unsaved_witness :
    ((⟨"a.png", "a"⟩ : Item).domain = "a" ∧ (⟨"b.png", "b"⟩ : Item).domain = "b" ∧
      (⟨"c.png", "c"⟩ : Item).domain = "c" ∧ ("a" : String) ≠ "c" ∧
      (⟨[], [get_save_path "a", get_save_path "c"], []⟩ : World).files.contains
        (get_save_path "a") = true ∧
      (⟨[], [get_save_path "a", get_save_path "c"], []⟩ : World).files.contains
        (get_save_path "b") = false ∧
      (⟨[], [get_save_path "a", get_save_path "c"], []⟩ : World).files.contains
        (get_save_path "c") = true ∧
      (mkStartupManager exConn).conn.restoreErr (get_save_path "a") = none ∧
      (mkStartupManager exConn).conn.restoreErr (get_save_path "c") = none) ∧
    ∃ w2, restore_all (mkStartupManager exConn)
        [⟨"a.png", "a"⟩, ⟨"b.png", "b"⟩, ⟨"c.png", "c"⟩]
        ⟨[], [get_save_path "a", get_save_path "c"], []⟩ = (w2, none) ∧
      w2.log = (⟨[], [get_save_path "a", get_save_path "c"], []⟩ : World).log ++
        [((mkStartupManager exConn).show_message, "restoring " ++ "a"),
          ((mkStartupManager exConn).show_message, "restored from " ++ get_save_path "a"),
          ((mkStartupManager exConn).show_message, "restoring " ++ "c"),
          ((mkStartupManager exConn).show_message, "restored from " ++ get_save_path "c")] :=
  ⟨⟨rfl, rfl, rfl, by decide, rfl, rfl, rfl, rfl, rfl⟩,
    restore_all_skips_unsaved (mkStartupManager exConn) "a" "b" "c"
      ⟨"a.png", "a"⟩ ⟨"b.png", "b"⟩ ⟨"c.png", "c"⟩
      ⟨[], [get_save_path "a", get_save_path "c"], []⟩
      rfl rfl rfl (by decide) rfl rfl rfl rfl rfl⟩

/-- Claim C9: save on a known, running domain whose external save succeeds
emits exactly two notifications through its sink, in order — "saving {D}"
then "saved to /var/lib/libvirt/qemu/save/{D}.save" (after the save mutator
is issued) — and a subsequent is_saved query returns true. -/
theorem save_emits_and_marks_saved (m : LibvirtManager) (d : String) (w : World)
    (hk : m.conn.known.contains d = true) (he : m.conn.saveErr d = none)
    (_hr : w.active.contains d = true) :
    (m.save d w).2 = none ∧
    (m.save d w).1.log = w.log ++ [(m.show_message, "saving " ++ d),
      (m.show_message,
        "saved to " ++ ("/var/lib/libvirt/qemu/save/" ++ d ++ ".save"))] ∧
    m.is_saved d (m.save d w).1 = true := by
  have hs := save_ok m d w hk he
  refine ⟨by rw [hs], by rw [hs]; rfl, ?_⟩
  rw [hs]
  exact (contains_iff _ _).mpr (by simp)

/-- Witness for save_emits_and_marks_saved: the web01 scenario through the
tray sink. -/
theorem save_emits_and_marks_saved_witness :
    ((mkTrayManager exConn "web01").conn.known.contains "web01" = true ∧
      (mkTrayManager exConn "web01").conn.saveErr "web01" = none ∧
      (⟨["web01"], [], []⟩ : World).active.contains "web01" = true) ∧
    ((mkTrayManager exConn "web01").save "web01" ⟨["web01"], [], []⟩).2 = none ∧
    ((mkTrayManager exConn "web01").save "web01" ⟨["web01"], [], []⟩).1.log =
      (⟨["web01"], [], []⟩ : World).log ++
        [((mkTrayManager exConn "web01").show_message, "saving " ++ "web01"),
          ((mkTrayManager exConn "web01").show_message,
            "saved to " ++ ("/var/lib/libvirt/qemu/save/" ++ "web01" ++ ".save"))] ∧
    (mkTrayManager exConn "web01").is_saved "web01"
      ((mkTrayManager exConn "web01").save "web01" ⟨["web01"], [], []⟩).1 = true :=
  ⟨⟨rfl, rfl, rfl⟩, save_emits_and_marks_saved (mkTrayManager exConn "web01")
    "web01" ⟨["web01"], [], []⟩ rfl rfl rfl⟩

/-- Claim C10: starting from an empty log, every notification emitted by the
Save All / Restore All handlers (which run against the startup manager
constructed in main with the default print sink) carries the default print
sink, while every notification emitted by a single-domain menu save/restore
handler (which runs against the menu's own tray-sink manager) carries that
domain's tray-notification sink. -/
theorem batch_vs_menu_sinks (conn : Conn) (items : List Item) (d : String)
    (w : World) (hw : w.log = []) :
    (∀ x ∈ (saveAllHandler conn items w).1.log, x.1 = Sink.defaultPrint) ∧
    (∀ x ∈ (restoreAllHandler conn items w).1.log, x.1 = Sink.defaultPrint) ∧
    (∀ x ∈ (menuSaveHandler conn d w).1.log, x.1 = Sink.trayNotify d) ∧
    (∀ x ∈ (menuRestoreHandler conn d w).1.log, x.1 = Sink.trayNotify d) := by
  refine ⟨?_, ?_, ?_, ?_⟩
  · intro x hx
    rcases save_all_log_sinks (mkStartupManager conn) items w x hx with h | h
    · rw [hw] at h; cases h
    · exact h
  · intro x hx
    rcases restore_all_log_sinks (mkStartupManager conn) items w x hx with h | h
    · rw [hw] at h; cases h
    · exact h
  · intro x hx
    rcases save_log_sinks (mkTrayManager conn d) d w x hx with h | h
    · rw [hw] at h; cases h
    · exact h
  · intro x hx
    rcases restore_log_sinks (mkTrayManager conn d) d w x hx with h | h
    · rw [hw] at h; cases h
    · exact h

/-- Witness for batch_vs_menu_sinks with one configured domain. -/
theorem batch_vs_menu_sinks_witness :
    (⟨["a"], [], []⟩ : World).log = [] ∧
    (∀ x ∈ (saveAllHandler exConn [⟨"a.png", "a"⟩] ⟨["a"], [], []⟩).1.log,
      x.1 = Sink.defaultPrint) ∧
    (∀ x ∈ (menuSaveHandler exConn "a" ⟨["a"], [], []⟩).1.log,
      x.1 = Sink.trayNotify "a") :=
  ⟨rfl, (batch_vs_menu_sinks exConn [⟨"a.png", "a"⟩] "a" ⟨["a"], [], []⟩ rfl).1,
    (batch_vs_menu_sinks exConn [⟨"a.png", "a"⟩] "a" ⟨["a"], [], []⟩ rfl).2.2.1⟩

end Virtray
